import Mathlib

/-!
Shallow embedding of the Secure-Remote-Password (SRP6) demo repository:
`src/rust/src/sha3_custom.rs` (a from-scratch SHA3-256 / Keccak-f[1600])
and `src/rust/src/main.rs` (the SRP server/client agents).

Machine integers: the Rust code works on `u64` lanes and on arbitrary
precision `BigUint`s.  Lanes are embedded as `Nat` with explicit `% 2^64`
where an operation can overflow 64 bits; `BigUint` values are embedded as
plain `Nat`.  `BigUint` subtraction panics in Rust when the result would be
negative; the one place that subtracts embeds the operation fallibly
(`Option`, `none` = panic).  Randomness (`thread_rng`) is an external
collaborator: every value the Rust code draws from it (private keys, salt,
scrambler) is an explicit argument of the embedded constructors.
-/

namespace Sha3

/-- Keccak round constants, from `ROUND_CONSTANTS` in sha3_custom.rs. -/
def roundConstants : List Nat :=
  [0x0000000000000001, 0x0000000000008082, 0x800000000000808a, 0x8000000080008000,
   0x000000000000808b, 0x0000000080000001, 0x8000000080008081, 0x8000000000008009,
   0x000000000000008a, 0x0000000000000088, 0x0000000080008009, 0x000000008000000a,
   0x000000008000808b, 0x800000000000008b, 0x8000000000008089, 0x8000000000008003,
   0x8000000000008002, 0x8000000000000080, 0x000000000000800a, 0x800000008000000a,
   0x8000000080008081, 0x8000000000008080, 0x0000000080000001, 0x8000000080008008]

/-- Rho rotation offsets, from `RHO_OFFSETS` in sha3_custom.rs (the flat
25-entry table, written here one `y`-row of five entries at a time). -/
def rhoOffsets : List Nat :=
  [0, 1, 62, 28, 27] ++ [36, 44, 6, 55, 20] ++ [3, 10, 43, 25, 39] ++
    [41, 45, 15, 21, 8] ++ [18, 2, 61, 56, 14]

/-- The 5x5 matrix of 64-bit lanes (`state: [[u64; 5]; 5]`), row-major:
the outer list is indexed by `y`, the inner by `x`. -/
def State := List (List Nat)

/-- The all-zero state `SHA3_256::new` starts from. -/
def zeroState : State := List.replicate 5 (List.replicate 5 0)

/-- Read `state[y][x]` (out-of-range reads, which the Rust code never
performs, default to 0). -/
def getLane (st : State) (y x : Nat) : Nat := (st.getD y []).getD x 0

/-- Write `state[y][x] = v`. -/
def setLane (st : State) (y x v : Nat) : State :=
  st.set y ((st.getD y []).set x v)

/-- Build a 5x5 state whose `(y, x)` lane is `f y x`. -/
def mkState (f : Nat → Nat → Nat) : State :=
  (List.range 5).map (fun y => (List.range 5).map (fun x => f y x))

/-- `SHA3_256::rotate_left`: reduce the rotation amount mod 64, return the
value unchanged for amount 0, otherwise `(value << p) | (value >> (64 - p))`
on `u64` (the left shift truncates to 64 bits, hence the `% 2^64`). -/
def rotate_left (value positions : Nat) : Nat :=
  let positions := positions % 64
  if positions = 0 then value
  else ((value <<< positions) % 2 ^ 64) ||| (value >>> (64 - positions))

/-- Bitwise complement of a `u64` lane (`!lane` in Rust), as xor with
the all-ones 64-bit word. -/
def complement64 (lane : Nat) : Nat := lane ^^^ 0xFFFFFFFFFFFFFFFF

/-- `SHA3_256::bytes_to_lane`: little-endian assembly of at most 8 bytes
into a lane (`lane |= bytes[i] << (8*i)`). -/
def bytesToLane (bytes : List Nat) : Nat :=
  ((bytes.take 8).enum).foldl (fun lane p => lane ||| (p.2 <<< (8 * p.1))) 0

/-- `SHA3_256::lane_to_bytes`: little-endian split of a lane into 8 bytes
(`bytes[i] = (lane >> 8*i) & 0xFF`), written out as the unrolled loop. -/
def laneToBytes (lane : Nat) : List Nat :=
  [lane &&& 0xFF, (lane >>> 8) &&& 0xFF, (lane >>> 16) &&& 0xFF, (lane >>> 24) &&& 0xFF,
   (lane >>> 32) &&& 0xFF, (lane >>> 40) &&& 0xFF, (lane >>> 48) &&& 0xFF,
   (lane >>> 56) &&& 0xFF]

/-- `SHA3_256::theta`: column parities, `D` values, xor into every lane. -/
def theta (st : State) : State :=
  let c := fun x =>
    getLane st 0 x ^^^ getLane st 1 x ^^^ getLane st 2 x ^^^ getLane st 3 x ^^^ getLane st 4 x
  let d := fun x => c ((x + 4) % 5) ^^^ rotate_left (c ((x + 1) % 5)) 1
  mkState (fun y x => getLane st y x ^^^ d x)

/-- `SHA3_256::rho_pi`: each lane at `(x, y)` is rotated by its rho offset
(`RHO_OFFSETS[5*y + x]`) and relocated to `new_state[(2x + 3y) % 5][y]`,
starting from an all-zero matrix as in the source. -/
def rhoPi (st : State) : State :=
  (List.range 5).foldl
    (fun acc y =>
      (List.range 5).foldl
        (fun acc x =>
          setLane acc ((2 * x + 3 * y) % 5) y
            (rotate_left (getLane st y x) (rhoOffsets.getD (5 * y + x) 0)))
        acc)
    zeroState

/-- `SHA3_256::chi`: `lane(x,y) XOR ((NOT lane(x+1,y)) AND lane(x+2,y))`. -/
def chi (st : State) : State :=
  mkState (fun y x =>
    getLane st y x ^^^ (complement64 (getLane st y ((x + 1) % 5)) &&& getLane st y ((x + 2) % 5)))

/-- `SHA3_256::iota`: xor the round constant into lane `(0,0)`. -/
def iota (st : State) (round : Nat) : State :=
  setLane st 0 0 (getLane st 0 0 ^^^ roundConstants.getD round 0)

/-- `SHA3_256::keccak_f`: 24 rounds of theta, rho+pi, chi, iota. -/
def keccakF (st : State) : State :=
  (List.range 24).foldl (fun s round => iota (chi (rhoPi (theta s))) round) st

/-- Split a list into consecutive chunks of `k` elements (Rust's
`slice::chunks`), by structural recursion on a fuel bound. -/
def chunksAux (k : Nat) : Nat → List Nat → List (List Nat)
  | 0, _ => []
  | _, [] => []
  | fuel + 1, a :: rest => (a :: rest).take k :: chunksAux k fuel ((a :: rest).drop k)

/-- Rust's `slice::chunks(k)` on a byte slice (used with `k = 8` and
`k = 136`, both positive, so the fuel `l.length` always suffices). -/
def chunks (k : Nat) (l : List Nat) : List (List Nat) := chunksAux k l.length l

/-- `SHA3_256::pad`, the final `*padded.last_mut().unwrap() |= 0x80` step:
or the mask into the last element of the list (empty list untouched,
mirroring the `padded.len() > 0` guard). -/
def orLast : List Nat → Nat → List Nat
  | [], _ => []
  | [a], m => [a ||| m]
  | a :: b :: rest, m => a :: orLast (b :: rest) m

/-- `SHA3_256::pad` with suffix byte `0x06`: append the suffix, then
`pad_len - 1` zero bytes where `pad_len = 136 - len % 136`, then or `0x80`
into the final byte. -/
def pad (input : List Nat) : List Nat :=
  let rateBytes := 136
  let padLen := rateBytes - input.length % rateBytes
  orLast (input ++ 0x06 :: List.replicate (padLen - 1) 0) 0x80

/-- `SHA3_256::absorb`: split the 136-byte chunk into 8-byte groups, xor
group `i` into lane `(y, x) = (i / 5, i % 5)` when `y < 5`. -/
def absorb (st : State) (chunk : List Nat) : State :=
  ((chunks 8 chunk).enum).foldl
    (fun acc p =>
      let lane := bytesToLane p.2
      let x := p.1 % 5
      let y := p.1 / 5
      if y < 5 then setLane acc y x (getLane acc y x ^^^ lane) else acc)
    st

/-- The 25 lanes of the state in the order `SHA3_256::squeeze` reads them
(`y = 0..4` outer, `x = 0..4` inner), written out as the unrolled loop. -/
def rowMajorLanes (st : State) : List Nat :=
  [getLane st 0 0, getLane st 0 1, getLane st 0 2, getLane st 0 3, getLane st 0 4,
   getLane st 1 0, getLane st 1 1, getLane st 1 2, getLane st 1 3, getLane st 1 4,
   getLane st 2 0, getLane st 2 1, getLane st 2 2, getLane st 2 3, getLane st 2 4,
   getLane st 3 0, getLane st 3 1, getLane st 3 2, getLane st 3 3, getLane st 3 4,
   getLane st 4 0, getLane st 4 1, getLane st 4 2, getLane st 4 3, getLane st 4 4]

/-- The byte-collection loop of `SHA3_256::squeeze`: stop once 32 bytes
are out, otherwise copy `min(8, 32 - pos)` bytes of the next lane.  (The
Rust source breaks out of both nested loops once `output_pos >= 32`; since
`pos` never decreases, that is the same as this single early exit.) -/
def squeezeLoop : List Nat → Nat → List Nat
  | [], _ => []
  | lane :: rest, pos =>
    if 32 ≤ pos then []
    else (laneToBytes lane).take (min 8 (32 - pos)) ++
      squeezeLoop rest (pos + min 8 (32 - pos))

/-- The 32 output bytes extracted by `SHA3_256::squeeze`. -/
def squeezeBytes (st : State) : List Nat := squeezeLoop (rowMajorLanes st) 0

/-- Lowercase hex digit for a value below 16 (`format!("{:02x}", b)`). -/
def hexChar (n : Nat) : Char :=
  if n < 10 then Char.ofNat (48 + n) else Char.ofNat (87 + n)

/-- The two lowercase hex characters of one byte (`format!("{:02x}", b)`). -/
def byteHexChars (b : Nat) : List Char := [hexChar (b / 16), hexChar (b % 16)]

/-- Render a byte list as the concatenated lowercase hex string
(`output.iter().map(|b| format!("{:02x}", b)).collect()`). -/
def bytesToHexChars (l : List Nat) : List Char := (l.map byteHexChars).flatten

/-- `SHA3_256::squeeze`: the hex rendering of the 32 extracted bytes. -/
def squeeze (st : State) : String := String.mk (bytesToHexChars (squeezeBytes st))

/-- `SHA3_256::digest` starting from the all-zero state of `SHA3_256::new`:
pad, absorb-and-permute each 136-byte chunk, squeeze. -/
def digest (input : List Nat) : String :=
  squeeze ((chunks 136 (pad input)).foldl (fun st chunk => keccakF (absorb st chunk)) zeroState)

/-- `SHA3_256::hash`. -/
def hash (message : List Nat) : String := digest message

/-- UTF-8 encoding of one code point (Rust's `str::as_bytes` views the
string as its UTF-8 bytes). -/
def utf8Char (c : Nat) : List Nat :=
  if c < 0x80 then [c]
  else if c < 0x800 then [0xC0 ||| (c >>> 6), 0x80 ||| (c &&& 0x3F)]
  else if c < 0x10000 then
    [0xE0 ||| (c >>> 12), 0x80 ||| ((c >>> 6) &&& 0x3F), 0x80 ||| (c &&& 0x3F)]
  else
    [0xF0 ||| (c >>> 18), 0x80 ||| ((c >>> 12) &&& 0x3F), 0x80 ||| ((c >>> 6) &&& 0x3F),
     0x80 ||| (c &&& 0x3F)]

/-- The UTF-8 bytes of a string (`message.as_bytes()`). -/
def strBytes (s : String) : List Nat := (s.data.map (fun c => utf8Char c.toNat)).flatten

/-- `SHA3_256::hash_string`. -/
def hashString (message : String) : String := hash (strBytes message)

end Sha3

namespace Srp

/-- Value of one hex digit byte accepted by `BigUint::parse_bytes(_, 16)`
(digits `0-9`, `a-f`, `A-F`). -/
def hexDigitVal (c : Char) : Option Nat :=
  if '0' ≤ c ∧ c ≤ '9' then some (c.toNat - 48)
  else if 'a' ≤ c ∧ c ≤ 'f' then some (c.toNat - 87)
  else if 'A' ≤ c ∧ c ≤ 'F' then some (c.toNat - 55)
  else none

/-- `BigUint::parse_bytes(s.as_bytes(), 16)`: an optional leading `+`,
then at least one hex digit; `none` on an empty string or any
non-hex-digit byte. -/
def parseBytes (s : String) : Option Nat :=
  let cs := match s.data with
    | '+' :: rest => rest
    | cs => cs
  if cs = [] then none
  else cs.foldl
    (fun acc c =>
      match acc, hexDigitVal c with
      | some a, some d => some (16 * a + d)
      | _, _ => none)
    (some 0)

/-- Digit-emission loop of `BigUint::to_str_radix(16)`, most significant
digit first, by structural recursion on a fuel bound (`n + 1` bounds the
number of divisions by 16 needed to exhaust `n`). -/
def natToHexAux : Nat → Nat → List Char
  | 0, _ => []
  | fuel + 1, n => if n = 0 then [] else natToHexAux fuel (n / 16) ++ [Sha3.hexChar (n % 16)]

/-- `BigUint::to_str_radix(16)`: lowercase hex, `"0"` for zero. -/
def natToHex (n : Nat) : String :=
  if n = 0 then "0" else String.mk (natToHexAux (n + 1) n)

/-- Square-and-multiply loop of `BigUint::modpow`, by structural recursion
on a fuel bound (`e + 1` bounds the number of halvings of `e`).
`BigUint::modpow` panics on a zero modulus; theorems about agents
therefore carry a `0 < modulus` hypothesis to stay on the domain where
this total embedding agrees with the Rust code. -/
def modpowAux : Nat → Nat → Nat → Nat → Nat
  | 0, _, _, m => 1 % m
  | fuel + 1, b, e, m =>
    if e = 0 then 1 % m
    else
      let h := modpowAux fuel (b * b % m) (e / 2) m
      if e % 2 = 1 then h * b % m else h

/-- `BigUint::modpow(exponent, modulus)`. -/
def modpow (b e m : Nat) : Nat := modpowAux (e + 1) b e m

/-- The `Base` struct of the `srp` module. -/
structure Base where
  modulus_n : Nat
  session_key : Nat
  private_key : Nat
  public_key : Nat
  salt : Nat
  multiplier_k : Nat
  identity_hash : Nat
  generator_g : Nat
  scrambler : Nat
  deriving DecidableEq, Repr

/-- `Base::new` after the modulus hex string has been parsed.  The Rust
constructor draws `private_key` from `thread_rng` (`key_size` bits);
randomness is an external collaborator, so the drawn value is an explicit
argument here.  All remaining fields start at `BigUint::zero()`. -/
def baseNew (modulus k g privateKey : Nat) : Base :=
  { modulus_n := modulus
    session_key := 0
    private_key := privateKey
    public_key := 0
    salt := 0
    multiplier_k := k
    identity_hash := 0
    generator_g := g
    scrambler := 0 }

/-- `Base::new` including the `BigUint::parse_bytes(modulus, 16).unwrap()`
step: a failed parse makes the `unwrap` panic, embedded as `none`. -/
def baseNewStr (modulus : String) (k g privateKey : Nat) : Option Base :=
  (parseBytes modulus).map (fun m => baseNew m k g privateKey)

/-- `Base::compute_identity_hash`: parse the SHA3-256 digest of
`format!("{}{}:{}", salt_hex, user, password)` as a base-16 integer,
defaulting to zero on a failed parse (`unwrap_or_default`). -/
def identityHashVal (salt : Nat) (user password : String) : Nat :=
  (parseBytes (Sha3.hashString (natToHex salt ++ user ++ ":" ++ password))).getD 0

/-- The `Server` struct of the `srp` module. -/
structure Server where
  base : Base
  s_verifier : Nat
  deriving DecidableEq, Repr

/-- `Server::new` after modulus parsing, with the three random draws
(salt of `salt_bits` bits, scrambler of `scrambler_bits` bits, private key
of `key_size` bits) passed in explicitly: set salt and scrambler, derive
the identity hash, compute `verifier = g^x mod N` and
`public_key = k * verifier + (g^b mod N)` (the Rust code reduces only the
exponentiation, not the sum). -/
def serverNew (modulus k g : Nat) (user password : String) (salt scrambler privateKey : Nat) :
    Server :=
  let b0 := baseNew modulus k g privateKey
  let b1 := { b0 with salt := salt, scrambler := scrambler }
  let x := identityHashVal salt user password
  let b2 := { b1 with identity_hash := x }
  let v := modpow b2.generator_g b2.identity_hash b2.modulus_n
  let b3 := { b2 with
    public_key := b2.multiplier_k * v + modpow b2.generator_g b2.private_key b2.modulus_n }
  { base := b3, s_verifier := v }

/-- `Server::new` including the modulus hex parse of `Base::new`. -/
def serverNewStr (modulus : String) (k g : Nat) (user password : String)
    (salt scrambler privateKey : Nat) : Option Server :=
  (parseBytes modulus).map (fun m => serverNew m k g user password salt scrambler privateKey)

/-- `Server::compute_session_key`:
`temp = client_public_key * verifier^scrambler mod N` (the product is not
reduced), then `session_key = temp^private_key mod N`. -/
def serverComputeSessionKey (s : Server) (publicKey : Nat) : Server :=
  let temp := publicKey * modpow s.s_verifier s.base.scrambler s.base.modulus_n
  { s with base := { s.base with
      session_key := modpow temp s.base.private_key s.base.modulus_n } }

/-- `Server::get_session_key`. -/
def serverGetSessionKey (s : Server) : Nat := s.base.session_key

/-- The `Client` struct of the `srp` module. -/
structure Client where
  base : Base
  deriving DecidableEq, Repr

/-- `Client::get_session_key`. -/
def clientGetSessionKey (c : Client) : Nat := c.base.session_key

/-- `Client::new` after modulus parsing, with the random private key
explicit: set the relayed salt, derive the identity hash, compute
`public_key = g^a mod N`. -/
def clientNew (modulus k g : Nat) (user password : String) (salt privateKey : Nat) : Client :=
  let b0 := baseNew modulus k g privateKey
  let b1 := { b0 with salt := salt }
  let x := identityHashVal salt user password
  let b2 := { b1 with identity_hash := x }
  { base := { b2 with public_key := modpow b2.generator_g b2.private_key b2.modulus_n } }

/-- `Client::new` including the modulus hex parse of `Base::new`. -/
def clientNewStr (modulus : String) (k g : Nat) (user password : String)
    (salt privateKey : Nat) : Option Client :=
  (parseBytes modulus).map (fun m => clientNew m k g user password salt privateKey)

/-- `Client::compute_session_key`: store the scrambler, compute
`exponent = private_key + scrambler * identity_hash` and
`subtraction = server_public_key - (g^x mod N) * k`, then
`session_key = subtraction^exponent mod N`.  The subtraction is a raw
`BigUint` subtraction, which panics in Rust when the result would be
negative; the panic is embedded as `none`. -/
def clientComputeSessionKey (c : Client) (pubKey scram : Nat) : Option Client :=
  let scrambler := scram
  let temp := c.base.private_key + scrambler * c.base.identity_hash
  let sub := modpow c.base.generator_g c.base.identity_hash c.base.modulus_n * c.base.multiplier_k
  if pubKey < sub then none
  else some { c with base := { c.base with
    scrambler := scrambler
    session_key := modpow (pubKey - sub) temp c.base.modulus_n } }

/-- A concrete client for the examples below: modulus 7, multiplier 3,
generator 2, user "u", password "p", salt 0, private key 1. -/
def demoClient : Client := clientNew 7 3 2 "u" "p" 0 1

/-- The demo client after `compute_session_key` with server public key 100
and scrambler 1 (this call succeeds, since 100 is not below
`(2^x mod 7) * 3 ≤ 18`). -/
def demoClient1 : Client := (clientComputeSessionKey demoClient 100 1).getD demoClient

/-- A concrete server state used to instantiate frame theorems. -/
def demoServer : Server :=
  { base :=
      { modulus_n := 7, session_key := 0, private_key := 11, public_key := 2, salt := 5
        multiplier_k := 3, identity_hash := 4, generator_g := 2, scrambler := 6 }
    s_verifier := 2 }

end Srp

namespace Srp

/-- The square-and-multiply loop computes `b ^ e % m` whenever the fuel
exceeds the exponent. -/
theorem modpowAux_eq : ∀ (fuel b e m : Nat), e < fuel → modpowAux fuel b e m = b ^ e % m
  | 0, _, _, _, h => absurd h (Nat.not_lt_zero _)
  | fuel + 1, b, e, m, h => by
    unfold modpowAux
    by_cases he : e = 0
    · simp [he]
    · have h2 : e / 2 < fuel := by omega
      rw [if_neg he, modpowAux_eq fuel (b * b % m) (e / 2) m h2]
      have hb : (b * b % m) ^ (e / 2) % m = ((b * b) ^ (e / 2)) % m := (Nat.pow_mod _ _ _).symm
      by_cases ho : e % 2 = 1
      · rw [if_pos ho, hb, Nat.mod_mul_mod]
        have : b * b = b ^ 2 := (pow_two b).symm
        rw [this, ← pow_mul, ← pow_succ]
        have : 2 * (e / 2) + 1 = e := by omega
        rw [this]
      · rw [if_neg ho, hb]
        have : b * b = b ^ 2 := (pow_two b).symm
        rw [this, ← pow_mul]
        have : 2 * (e / 2) = e := by omega
        rw [this]

/-- `modpow b e m = b ^ e % m`. -/
theorem modpow_eq (b e m : Nat) : modpow b e m = b ^ e % m :=
  modpowAux_eq (e + 1) b e m (Nat.lt_succ_self e)

/-- The SRP session-key algebra: the server's
`(A * (v^u mod N))^b mod N` with `A = g^a mod N` and `v = g^x mod N`
equals the client's `(g^b mod N)^(a + u*x) mod N`. -/
theorem srp_key_identity (N g x a b u : Nat) :
    modpow (modpow g a N * modpow (modpow g x N) u N) b N
      = modpow (modpow g b N) (a + u * x) N := by
  simp only [modpow_eq]
  have hL : (g ^ a % N) * ((g ^ x % N) ^ u % N) ≡ g ^ a * (g ^ x) ^ u [MOD N] := by
    have h1 : (g ^ x % N) ^ u % N ≡ (g ^ x) ^ u [MOD N] :=
      (Nat.mod_modEq _ N).trans ((Nat.mod_modEq (g ^ x) N).pow u)
    exact (Nat.mod_modEq (g ^ a) N).mul h1
  have hL2 : ((g ^ a % N) * ((g ^ x % N) ^ u % N)) ^ b % N
      = (g ^ a * (g ^ x) ^ u) ^ b % N := hL.pow b
  have hR : (g ^ b % N) ^ (a + u * x) % N = (g ^ b) ^ (a + u * x) % N :=
    (Nat.mod_modEq (g ^ b) N).pow (a + u * x)
  rw [hL2, hR, ← pow_mul, ← pow_mul, ← pow_add]
  congr 1
  ring

end Srp

/-- C9: `rotate_left` is total on 64-bit lanes: the rotation amount is
reduced mod 64, amount 0 (and any multiple of 64) returns the value
unchanged, and a value below `2^64` stays below `2^64` (the shifts
actually performed are all by fewer than 64 bits). -/
theorem rotate_left_total (v p : Nat) :
    Sha3.rotate_left v p = Sha3.rotate_left v (p % 64)
    ∧ Sha3.rotate_left v 0 = v
    ∧ (∀ j, Sha3.rotate_left v (64 * j) = v)
    ∧ (v < 2 ^ 64 → Sha3.rotate_left v p < 2 ^ 64) := by
  refine ⟨?_, ?_, ?_, ?_⟩
  · unfold Sha3.rotate_left
    have h : p % 64 % 64 = p % 64 := Nat.mod_mod_of_dvd p dvd_rfl
    rw [h]
  · simp [Sha3.rotate_left]
  · intro j
    simp [Sha3.rotate_left, Nat.mul_mod_right]
  · intro hv
    unfold Sha3.rotate_left
    by_cases h0 : p % 64 = 0
    · simpa [h0] using hv
    · simp only [h0, if_neg]
      refine Nat.or_lt_two_pow (Nat.mod_lt _ (by positivity)) ?_
      calc v >>> (64 - p % 64) ≤ v := by
              rw [Nat.shiftRight_eq_div_pow]; exact Nat.div_le_self _ _
        _ < 2 ^ 64 := hv

/-- Witness for C9 at `v = 5`, `p = 130`. -/
theorem rotate_left_total_witness :
    Sha3.rotate_left 5 130 = Sha3.rotate_left 5 (130 % 64) ∧ Sha3.rotate_left 5 130 < 2 ^ 64 :=
  ⟨(rotate_left_total 5 130).1, (rotate_left_total 5 130).2.2.2 (by decide)⟩

set_option maxRecDepth 100000 in
/-- C3 counterexample: with modulus `3`, multiplier `3`, generator `2`,
user `"u"`, password `"p"`, salt `0`, scrambler `0` and private key `0`,
the stored server public key is `3 * v + (2^0 mod 3) = 4`, which is not
below the modulus and differs from `(3 * v + 2^0) mod 3`. -/
theorem server_public_key_not_reduced :
    ¬ ((Srp.serverNew 3 3 2 "u" "p" 0 0 0).base.public_key < 3)
    ∧ (Srp.serverNew 3 3 2 "u" "p" 0 0 0).base.public_key
        ≠ (3 * (Srp.serverNew 3 3 2 "u" "p" 0 0 0).s_verifier + 2 ^ 0) % 3 := by
  constructor
  · decide
  · decide

/-- C3 amended: the server constructor stores
`public_key = k * verifier + (g^b mod N)` — the modular reduction applies
only to the exponentiation, not to the sum, so the stored key is congruent
to `k*v + g^b` mod `N` but not necessarily below `N`. -/
theorem server_public_key_formula (N k g : Nat) (user password : String)
    (salt scram b : Nat) :
    (Srp.serverNew N k g user password salt scram b).base.public_key
      = k * Srp.modpow g (Srp.identityHashVal salt user password) N + Srp.modpow g b N
    ∧ (Srp.serverNew N k g user password salt scram b).base.public_key % N
      = (k * g ^ Srp.identityHashVal salt user password + g ^ b) % N := by
  constructor
  · rfl
  · show (k * Srp.modpow g (Srp.identityHashVal salt user password) N + Srp.modpow g b N) % N = _
    simp only [Srp.modpow_eq]
    exact ((Nat.mod_modEq (g ^ Srp.identityHashVal salt user password) N).mul_left k).add
      (Nat.mod_modEq (g ^ b) N)

/-- C10: both freshly constructed agents report a zero session key through
`get_session_key`, and `Base::new` initializes session key, public key,
salt, identity hash and scrambler to `BigUint::zero()` (the `0 < N`
hypothesis keeps the statement on the domain where `BigUint::modpow`,
called by the agent constructors, does not panic). -/
theorem fresh_agents_zero_session_key (N k g : Nat) (user password : String)
    (salt scram bPriv aPriv : Nat) (hN : 0 < N) :
    Srp.serverGetSessionKey (Srp.serverNew N k g user password salt scram bPriv) = 0
    ∧ Srp.clientGetSessionKey (Srp.clientNew N k g user password salt aPriv) = 0
    ∧ (Srp.baseNew N k g bPriv).session_key = 0
    ∧ (Srp.baseNew N k g bPriv).public_key = 0
    ∧ (Srp.baseNew N k g bPriv).salt = 0
    ∧ (Srp.baseNew N k g bPriv).identity_hash = 0
    ∧ (Srp.baseNew N k g bPriv).scrambler = 0 :=
  ⟨rfl, rfl, rfl, rfl, rfl, rfl, rfl⟩

/-- Witness for C10 at modulus 7, multiplier 3, generator 2. -/
theorem fresh_agents_zero_session_key_witness :
    Srp.serverGetSessionKey (Srp.serverNew 7 3 2 "u" "p" 5 6 11) = 0
    ∧ Srp.clientGetSessionKey (Srp.clientNew 7 3 2 "u" "p" 5 13) = 0
    ∧ (Srp.baseNew 7 3 2 11).session_key = 0
    ∧ (Srp.baseNew 7 3 2 11).public_key = 0
    ∧ (Srp.baseNew 7 3 2 11).salt = 0
    ∧ (Srp.baseNew 7 3 2 11).identity_hash = 0
    ∧ (Srp.baseNew 7 3 2 11).scrambler = 0 :=
  fresh_agents_zero_session_key 7 3 2 "u" "p" 5 6 11 13 (by decide)

/-- C7 counterexample: a zero generator and zero multiplier are accepted —
`Base::new` performs no positivity check on them, so no `ParameterError`
(or any failure at all) is produced. -/
theorem zero_generator_accepted : Srp.baseNewStr "7" 0 0 5 ≠ none := by decide

/-- C7 amended: when the modulus string is not valid hexadecimal the hex
parse yields nothing and every constructor fails (in the Rust code this
failure is an `unwrap` panic, not a recoverable `ParameterError`); no
validity check is made on generator or multiplier, so zero values are
accepted with a valid modulus. -/
theorem constructor_modulus_parse_failure (s : String) (k g pk salt scram aPriv : Nat)
    (user password : String) (h : Srp.parseBytes s = none) :
    Srp.baseNewStr s k g pk = none
    ∧ Srp.serverNewStr s k g user password salt scram pk = none
    ∧ Srp.clientNewStr s k g user password salt aPriv = none
    ∧ Srp.baseNewStr "7" 0 0 pk ≠ none := by
  have h7 : Srp.parseBytes "7" = some 7 := rfl
  refine ⟨?_, ?_, ?_, ?_⟩
  · simp [Srp.baseNewStr, h]
  · simp [Srp.serverNewStr, h]
  · simp [Srp.clientNewStr, h]
  · simp [Srp.baseNewStr, h7]

/-- Witness for C7 at the non-hex modulus string `"zz"`. -/
theorem constructor_modulus_parse_failure_witness :
    Srp.baseNewStr "zz" 3 2 5 = none
    ∧ Srp.serverNewStr "zz" 3 2 "u" "p" 1 2 5 = none
    ∧ Srp.clientNewStr "zz" 3 2 "u" "p" 1 4 = none
    ∧ Srp.baseNewStr "7" 0 0 5 ≠ none :=
  constructor_modulus_parse_failure "zz" 3 2 5 1 2 4 "u" "p" (by decide)

set_option maxRecDepth 1000000 in
/-- C8 counterexample: the client's `compute_session_key` does mutate a
field other than the session key — it overwrites the scrambler with its
argument.  On the concrete demo client (scrambler 0 after construction)
a call with scrambler 1 changes the field to 1. -/
theorem client_compute_mutates_scrambler :
    Srp.clientComputeSessionKey Srp.demoClient 100 1 = some Srp.demoClient1
    ∧ Srp.demoClient1.base.scrambler ≠ Srp.demoClient.base.scrambler := by
  refine ⟨by decide, by decide⟩

/-- C8 amended: `Server::compute_session_key` mutates only the session
key; `Client::compute_session_key` mutates only the session key and the
scrambler, which it overwrites with its `scram` argument.  All other
fields (modulus, generator, multiplier, salt, identity hash, private key,
public key, verifier) are unchanged on both sides. -/
theorem compute_session_key_frame (s : Srp.Server) (A : Nat) (c : Srp.Client) (B u : Nat)
    (c' : Srp.Client) (h : Srp.clientComputeSessionKey c B u = some c') :
    (Srp.serverComputeSessionKey s A).base.modulus_n = s.base.modulus_n
    ∧ (Srp.serverComputeSessionKey s A).base.generator_g = s.base.generator_g
    ∧ (Srp.serverComputeSessionKey s A).base.multiplier_k = s.base.multiplier_k
    ∧ (Srp.serverComputeSessionKey s A).base.salt = s.base.salt
    ∧ (Srp.serverComputeSessionKey s A).base.identity_hash = s.base.identity_hash
    ∧ (Srp.serverComputeSessionKey s A).base.scrambler = s.base.scrambler
    ∧ (Srp.serverComputeSessionKey s A).base.private_key = s.base.private_key
    ∧ (Srp.serverComputeSessionKey s A).base.public_key = s.base.public_key
    ∧ (Srp.serverComputeSessionKey s A).s_verifier = s.s_verifier
    ∧ c'.base.modulus_n = c.base.modulus_n
    ∧ c'.base.generator_g = c.base.generator_g
    ∧ c'.base.multiplier_k = c.base.multiplier_k
    ∧ c'.base.salt = c.base.salt
    ∧ c'.base.identity_hash = c.base.identity_hash
    ∧ c'.base.private_key = c.base.private_key
    ∧ c'.base.public_key = c.base.public_key
    ∧ c'.base.scrambler = u := by
  have hc : c' = { c with base := { c.base with
      scrambler := u
      session_key := Srp.modpow
        (B - Srp.modpow c.base.generator_g c.base.identity_hash c.base.modulus_n *
          c.base.multiplier_k)
        (c.base.private_key + u * c.base.identity_hash) c.base.modulus_n } } := by
    by_cases hlt : B < Srp.modpow c.base.generator_g c.base.identity_hash c.base.modulus_n *
        c.base.multiplier_k
    · simp only [Srp.clientComputeSessionKey, if_pos hlt] at h
      cases h
    · simp only [Srp.clientComputeSessionKey, if_neg hlt] at h
      cases h
      rfl
  subst hc
  exact ⟨rfl, rfl, rfl, rfl, rfl, rfl, rfl, rfl, rfl, rfl, rfl, rfl, rfl, rfl, rfl, rfl, rfl⟩

set_option maxRecDepth 1000000 in
/-- Witness for C8 on the demo server and demo client. -/
theorem compute_session_key_frame_witness :
    (Srp.serverComputeSessionKey Srp.demoServer 5).base.salt = Srp.demoServer.base.salt
    ∧ (Srp.serverComputeSessionKey Srp.demoServer 5).s_verifier = Srp.demoServer.s_verifier
    ∧ Srp.demoClient1.base.identity_hash = Srp.demoClient.base.identity_hash
    ∧ Srp.demoClient1.base.scrambler = 1 := by
  have h := compute_session_key_frame Srp.demoServer 5 Srp.demoClient 100 1 Srp.demoClient1
    (by decide)
  exact ⟨h.2.2.2.1, h.2.2.2.2.2.2.2.2.1, h.2.2.2.2.2.2.2.2.2.2.2.2.2.1,
    h.2.2.2.2.2.2.2.2.2.2.2.2.2.2.2.2⟩

set_option maxRecDepth 1000000 in
/-- C2: at server public key 0 and scrambler 1, the demo client's
`compute_session_key` hits the underflowing subtraction
`0 - (2^x mod 7) * 3` and fails (a `BigUint` subtraction panic in the Rust
code, `none` in this embedding) instead of reducing modulo the modulus. -/
theorem client_subtraction_underflow :
    Srp.clientComputeSessionKey Srp.demoClient 0 1 = none := by decide

/-- Or-ing a mask into the last element preserves the length. -/
theorem orLast_length : ∀ (l : List Nat) (m : Nat), (Sha3.orLast l m).length = l.length
  | [], _ => rfl
  | [_], _ => rfl
  | a :: b :: rest, m => by
    show (a :: Sha3.orLast (b :: rest) m).length = _
    simp [orLast_length (b :: rest) m]

/-- Or-ing a mask into the last element of `xs ++ [a]` ors it into `a`. -/
theorem orLast_append (xs : List Nat) (a m : Nat) :
    Sha3.orLast (xs ++ [a]) m = xs ++ [a ||| m] := by
  induction xs with
  | nil => rfl
  | cons x xs ih =>
    cases xs with
    | nil => rfl
    | cons y ys =>
      show x :: Sha3.orLast ((y :: ys) ++ [a]) m = _
      rw [ih]
      rfl

/-- C5: the padded message always gains at least one byte and its length
is a (nonzero) multiple of 136; when the input length is already a
multiple of 136, the appended block is exactly `0x06`, then 134 zero
bytes, then `0x80` (the zero final byte with `0x80` or-ed in). -/
theorem pad_correct (input : List Nat) :
    0 < (Sha3.pad input).length
    ∧ (Sha3.pad input).length % 136 = 0
    ∧ input.length < (Sha3.pad input).length
    ∧ (input.length % 136 = 0 →
        Sha3.pad input = input ++ 0x06 :: (List.replicate 134 0 ++ [0x80])) := by
  have hpad : Sha3.pad input
      = Sha3.orLast (input ++ 0x06 :: List.replicate (136 - input.length % 136 - 1) 0) 0x80 :=
    rfl
  have hlen : (Sha3.pad input).length = input.length + (136 - input.length % 136) := by
    rw [hpad, orLast_length]
    simp only [List.length_append, List.length_cons, List.length_replicate]
    omega
  refine ⟨by rw [hlen]; omega, by rw [hlen]; omega, by rw [hlen]; omega, ?_⟩
  intro h0
  have h135 : 136 - input.length % 136 - 1 = 134 + 1 := by omega
  rw [hpad, h135, List.replicate_succ']
  have hassoc : input ++ 0x06 :: (List.replicate 134 (0 : Nat) ++ [0])
      = (input ++ 0x06 :: List.replicate 134 0) ++ [0] := by
    simp
  rw [hassoc, orLast_append]
  simp

/-- Witness for C5 at the empty input (length 0, a multiple of 136). -/
theorem pad_correct_witness :
    Sha3.pad [] = [] ++ 0x06 :: (List.replicate 134 0 ++ [0x80]) :=
  (pad_correct []).2.2.2 (by decide)

/-- Every byte extracted from a lane is masked with `0xFF`, hence below 256. -/
theorem laneToBytes_lt (l : Nat) : ∀ b ∈ Sha3.laneToBytes l, b < 256 := by
  have hmask : ∀ x : Nat, x &&& 255 < 256 := fun x => Nat.lt_succ_of_le Nat.and_le_right
  simp only [Sha3.laneToBytes, List.mem_cons, List.not_mem_nil, or_false]
  rintro b (rfl | rfl | rfl | rfl | rfl | rfl | rfl | rfl) <;> exact hmask _

/-- Every byte produced by the squeeze loop is below 256. -/
theorem squeezeLoop_lt :
    ∀ (lanes : List Nat) (pos b : Nat), b ∈ Sha3.squeezeLoop lanes pos → b < 256
  | [], _, b, h => absurd h (List.not_mem_nil b)
  | lane :: rest, pos, b, h => by
    unfold Sha3.squeezeLoop at h
    by_cases hp : 32 ≤ pos
    · rw [if_pos hp] at h
      exact absurd h (List.not_mem_nil b)
    · rw [if_neg hp] at h
      rcases List.mem_append.mp h with h1 | h2
      · exact laneToBytes_lt lane b (List.take_subset _ _ h1)
      · exact squeezeLoop_lt rest _ b h2

/-- The squeeze phase extracts exactly 32 bytes from any state. -/
theorem squeezeBytes_length (st : Sha3.State) : (Sha3.squeezeBytes st).length = 32 := by
  show (Sha3.squeezeLoop (Sha3.rowMajorLanes st) 0).length = 32
  rw [Sha3.rowMajorLanes]
  simp [Sha3.squeezeLoop, Sha3.laneToBytes]

/-- The hex rendering has two characters per byte. -/
theorem bytesToHexChars_length (l : List Nat) : (Sha3.bytesToHexChars l).length = 2 * l.length := by
  induction l with
  | nil => rfl
  | cons a l ih =>
    simp only [Sha3.bytesToHexChars, List.map_cons, List.flatten_cons] at ih ⊢
    simp only [List.length_append, ih, Sha3.byteHexChars, List.length_cons, List.length_nil,
      List.length_cons]
    omega

/-- The hex digit of a value below 16 is a lowercase hex character. -/
theorem hexChar_mem (n : Nat) (h : n < 16) : Sha3.hexChar n ∈ "0123456789abcdef".data := by
  interval_cases n <;> decide

/-- The hex rendering of bytes below 256 uses only lowercase hex characters. -/
theorem bytesToHexChars_mem (l : List Nat) (hl : ∀ b ∈ l, b < 256) :
    ∀ c ∈ Sha3.bytesToHexChars l, c ∈ "0123456789abcdef".data := by
  induction l with
  | nil => intro c hc; exact absurd hc (List.not_mem_nil c)
  | cons a l ih =>
    intro c hc
    simp only [Sha3.bytesToHexChars, List.map_cons, List.flatten_cons] at hc
    rcases List.mem_append.mp hc with h1 | h2
    · have ha : a < 256 := hl a (List.mem_cons_self a l)
      simp only [Sha3.byteHexChars, List.mem_cons, List.not_mem_nil, or_false] at h1
      rcases h1 with rfl | rfl
      · exact hexChar_mem _ (by omega)
      · exact hexChar_mem _ (by omega)
    · exact ih (fun b hb => hl b (List.mem_cons_of_mem a hb)) c h2

/-- C6: hashing is deterministic (equal inputs yield equal digest
strings), and for every input — the empty one included — the digest has
exactly 64 characters (two per output byte, 32 bytes) drawn from the
lowercase hex alphabet. -/
theorem hash_deterministic_and_hex (m : List Nat) :
    Sha3.hash m = Sha3.hash m
    ∧ (Sha3.hash m).length = 64
    ∧ ∀ c ∈ (Sha3.hash m).data, c ∈ "0123456789abcdef".data := by
  refine ⟨rfl, ?_, ?_⟩
  · show (Sha3.bytesToHexChars (Sha3.squeezeBytes _)).length = 64
    rw [bytesToHexChars_length, squeezeBytes_length]
  · show ∀ c ∈ Sha3.bytesToHexChars (Sha3.squeezeBytes _), c ∈ "0123456789abcdef".data
    exact bytesToHexChars_mem _ (fun b hb => squeezeLoop_lt _ 0 b hb)

set_option maxRecDepth 1000000 in
/-- C4: the SHA3-256 digest of the empty byte sequence is the canonical
NIST vector, 64 lowercase hex characters. -/
theorem hash_empty :
    Sha3.hash [] = "a7ffc6f8bf1ed76651c14756a061d662f580ff4de43b49fa82d80a4b80f8434a" := by
  decide

/-- C1: when server and client share modulus, generator, multiplier, user
and password, the client is constructed with the server's salt, and each
side's `compute_session_key` receives the other side's public key (the
client also receiving the server's scrambler), the client's call succeeds
(no subtraction underflow) and both session keys are the same integer.
The random draws (server private key, client private key, salt,
scrambler) are arbitrary, and `0 < N` keeps the statement on the domain
where `BigUint::modpow` does not panic. -/
theorem session_keys_agree (N k g : Nat) (user password : String)
    (salt scram bPriv aPriv : Nat) (hN : 0 < N) :
    (Srp.clientComputeSessionKey (Srp.clientNew N k g user password salt aPriv)
        (Srp.serverNew N k g user password salt scram bPriv).base.public_key
        (Srp.serverNew N k g user password salt scram bPriv).base.scrambler).map
      (fun c => Srp.clientGetSessionKey c)
    = some (Srp.serverGetSessionKey
        (Srp.serverComputeSessionKey (Srp.serverNew N k g user password salt scram bPriv)
          (Srp.clientNew N k g user password salt aPriv).base.public_key)) := by
  have hBpub : (Srp.serverNew N k g user password salt scram bPriv).base.public_key
      = k * Srp.modpow g (Srp.identityHashVal salt user password) N
        + Srp.modpow g bPriv N := rfl
  have hscr : (Srp.serverNew N k g user password salt scram bPriv).base.scrambler = scram := rfl
  have hApub : (Srp.clientNew N k g user password salt aPriv).base.public_key
      = Srp.modpow g aPriv N := rfl
  rw [hBpub, hscr, hApub]
  show (if k * Srp.modpow g (Srp.identityHashVal salt user password) N + Srp.modpow g bPriv N
          < Srp.modpow g (Srp.identityHashVal salt user password) N * k
        then (none : Option Srp.Client)
        else some _).map (fun c => Srp.clientGetSessionKey c)
      = some (Srp.serverGetSessionKey _)
  have hnotlt : ¬ (k * Srp.modpow g (Srp.identityHashVal salt user password) N
      + Srp.modpow g bPriv N
      < Srp.modpow g (Srp.identityHashVal salt user password) N * k) := by
    rw [Nat.mul_comm]
    omega
  rw [if_neg hnotlt]
  show some (Srp.modpow
      (k * Srp.modpow g (Srp.identityHashVal salt user password) N + Srp.modpow g bPriv N
        - Srp.modpow g (Srp.identityHashVal salt user password) N * k)
      (aPriv + scram * Srp.identityHashVal salt user password) N)
    = some (Srp.modpow
      (Srp.modpow g aPriv N
        * Srp.modpow (Srp.modpow g (Srp.identityHashVal salt user password) N) scram N)
      bPriv N)
  congr 1
  have hsub : k * Srp.modpow g (Srp.identityHashVal salt user password) N
      + Srp.modpow g bPriv N
      - Srp.modpow g (Srp.identityHashVal salt user password) N * k
      = Srp.modpow g bPriv N := by
    rw [Nat.mul_comm]
    omega
  rw [hsub]
  exact (Srp.srp_key_identity N g (Srp.identityHashVal salt user password) aPriv bPriv
    scram).symm

/-- Witness for C1 at modulus 7, multiplier 3, generator 2, user "u",
password "p", salt 5, scrambler 6, server private key 11, client private
key 13. -/
theorem session_keys_agree_witness :
    (Srp.clientComputeSessionKey (Srp.clientNew 7 3 2 "u" "p" 5 13)
        (Srp.serverNew 7 3 2 "u" "p" 5 6 11).base.public_key
        (Srp.serverNew 7 3 2 "u" "p" 5 6 11).base.scrambler).map
      (fun c => Srp.clientGetSessionKey c)
    = some (Srp.serverGetSessionKey
        (Srp.serverComputeSessionKey (Srp.serverNew 7 3 2 "u" "p" 5 6 11)
          (Srp.clientNew 7 3 2 "u" "p" 5 13).base.public_key)) :=
  session_keys_agree 7 3 2 "u" "p" 5 6 11 13 (by decide)

set_option maxRecDepth 1000000 in
/-- Witness for C6 at the empty input and the digit character of its
digest. -/
theorem hash_deterministic_and_hex_witness :
    (Sha3.hash []).length = 64 ∧ 'a' ∈ "0123456789abcdef".data :=
  ⟨(hash_deterministic_and_hex []).2.1,
   (hash_deterministic_and_hex []).2.2 'a' (by decide)⟩
